import Mathlib

/-!
Verification of the bounded external-command execution supervisor
(`ScriptExecutor` in the scoutai repository). The definitions below are a
shallow embedding of `ScriptExecutor.runScript`, `appendLines`, the stream
`data` handlers, the timeout timer callback and `stopScript`.
-/

namespace ScoutAI

/-- Source field `this.timeoutMs = 30000` (milliseconds). -/
def timeoutMs : Nat := 30000

/-- Source field `this.maxOutputChars = 50000`. -/
def maxOutputChars : Nat := 50000

/-- A JS word character, as matched by `\w` (and used by the `\b` boundary
in the regex `/\bsudo\b/i`): `[A-Za-z0-9_]`. -/
def isWordChar (c : Char) : Bool :=
  (('a' ≤ c && c ≤ 'z') || ('A' ≤ c && c ≤ 'Z') || ('0' ≤ c && c ≤ '9') || c = '_')

/-- Case-insensitive ASCII lowering of one character (covers the `i` flag of
`/\bsudo\b/i` for the letters involved). -/
def lowerAscii (c : Char) : Char :=
  if 'A' ≤ c && c ≤ 'Z' then Char.ofNat (c.toNat + 32) else c

/-- Does the list start with the four letters `sudo` (case-insensitively),
followed by a word boundary (end of string or a non-word character)? -/
def sudoAt : List Char → Bool
  | s :: u :: d :: o :: rest =>
      lowerAscii s = 's' && lowerAscii u = 'u' && lowerAscii d = 'd' &&
      lowerAscii o = 'o' &&
      (match rest with
       | [] => true
       | c :: _ => !isWordChar c)
  | _ => false

/-- The left boundary of `\b`: start of string, or a non-word previous
character. -/
def boundaryOk : Option Char → Bool
  | none => true
  | some c => !isWordChar c

/-- Scan of the command line for a standalone `sudo` token; `prev` is the
character just before the current position. -/
def hasSudoAux (prev : Option Char) : List Char → Bool
  | [] => false
  | c :: rest =>
      (boundaryOk prev && sudoAt (c :: rest)) || hasSudoAux (some c) rest

/-- Embedding of the guard `/\bsudo\b/i.test(script)`. -/
def sudoBlocked (script : String) : Bool :=
  hasSudoAux none script.data

/-- JS `WhiteSpace`/`LineTerminator` characters removed by
`String.prototype.trim`. -/
def isJsWhitespace (c : Char) : Bool :=
  c = ' ' || c = '\t' || c = '\n' || c = '\r' ||
  c = '\x0b' || c = '\x0c' || c = '\u00A0' || c = '\uFEFF' ||
  c = '\u2028' || c = '\u2029'

/-- Embedding of `this.scriptInput.value.trim()`: strip leading and trailing
whitespace. -/
def trimJs (s : String) : String :=
  String.mk (((s.data.dropWhile isJsWhitespace).reverse.dropWhile
    isJsWhitespace).reverse)

/-- Embedding of `data.split(/\r?\n/)`: split on `\r\n` or a lone `\n`; a
lone `\r` not followed by `\n` is kept inside the line. -/
def splitLines : List Char → List (List Char)
  | [] => [[]]
  | '\r' :: '\n' :: rest => [] :: splitLines rest
  | '\n' :: rest => [] :: splitLines rest
  | c :: rest =>
      match splitLines rest with
      | [] => [[c]]
      | l :: ls => (c :: l) :: ls

/-- The count returned by `appendLines`: `added += line.length` for each
non-empty line of the split. -/
def countChars (s : List Char) : Nat :=
  (((splitLines s).filter (fun l => !l.isEmpty)).map List.length).sum

/-- One entry of the run's output log (`outputDiv` children): either a line
div created by `appendLines`, or a status div created by `appendMessage`. -/
inductive OutputEntry where
  | line (cls : String) (text : List Char)
  | message (cls : String) (text : String)
deriving DecidableEq, Repr

/-- The line divs `appendLines` appends for a chunk: one per non-empty line,
in order. -/
def lineEntries (cls : String) (s : List Char) : List OutputEntry :=
  (splitLines s).filterMap
    (fun l => if l.isEmpty then none else some (OutputEntry.line cls l))

/-- Per-run mutable state touched by the stream handlers, the timer callback
and `stopScript`: `outputChars`, `this.timedOut`, `this.wasStopped`, the
`outputDiv` log, and the number of `SIGTERM`s sent to the child. -/
structure StreamState where
  outputChars : Nat
  timedOut : Bool
  wasStopped : Bool
  log : List OutputEntry
  killSignals : Nat
deriving DecidableEq, Repr

/-- Stream state at spawn time: counter `outputChars = 0`, both flags reset
to `false` by `runScript`, empty output block, no signal sent. -/
def initStream : StreamState :=
  { outputChars := 0, timedOut := false, wasStopped := false
    log := [], killSignals := 0 }

/-- The `stdout`/`stderr` `data` handler: ignore the chunk when the counter
is already over the cap or the run is timed out or stopped; otherwise append
the chunk's non-empty lines, add their characters to the counter, and only
then compare with the cap — on overflow append the truncation notice, set
`wasStopped` and send `SIGTERM`. -/
def onData (cls : String) (st : StreamState) (chunk : String) : StreamState :=
  if st.outputChars > maxOutputChars ∨ st.timedOut = true ∨ st.wasStopped = true then
    st
  else
    let st1 : StreamState :=
      { st with
        outputChars := st.outputChars + countChars chunk.data
        log := st.log ++ lineEntries cls chunk.data }
    if st1.outputChars > maxOutputChars then
      { st1 with
        log := st1.log ++ [OutputEntry.message "output-error" "⏹️ Output truncated (too large)"]
        wasStopped := true
        killSignals := st1.killSignals + 1 }
    else st1

/-- The `setTimeout` callback armed at spawn with `timeoutMs`: set
`this.timedOut` and send `SIGTERM` to the current process. -/
def onTimeout (st : StreamState) : StreamState :=
  { st with timedOut := true, killSignals := st.killSignals + 1 }

/-- Embedding of `stopScript` while a run is active: set `this.wasStopped`
and send `SIGTERM`. -/
def onStop (st : StreamState) : StreamState :=
  { st with wasStopped := true, killSignals := st.killSignals + 1 }

/-- An asynchronous event delivered to the run before the `close`/`error`
event resolves it. -/
inductive RunEvent where
  | data (cls : String) (chunk : String)
  | timeoutFires
  | stopRequest
deriving DecidableEq, Repr

/-- Characters a single event can add to the counter. -/
def chunkLen : RunEvent → Nat
  | RunEvent.data _ chunk => countChars chunk.data
  | _ => 0

def stepEvent (st : StreamState) : RunEvent → StreamState
  | RunEvent.data cls chunk => onData cls st chunk
  | RunEvent.timeoutFires => onTimeout st
  | RunEvent.stopRequest => onStop st

/-- Terminal classification of a run, mirroring the if/else chain after the
`close` promise resolves: `timedOut` first, then `wasStopped`, then
`result.code === 0 || result.code === null` as success, any other code as a
completed run that reported failure. A spawn/stream error takes the `catch`
branch instead (`failed`). -/
inductive Outcome where
  | blocked
  | timedOutO
  | stopped
  | completed (exitCode : Option Int)
  | failed (msg : String)
deriving DecidableEq, Repr

def classify (t w : Bool) (code : Option Int) : Outcome :=
  if t then Outcome.timedOutO
  else if w then Outcome.stopped
  else Outcome.completed code

/-- Embedding of the success test `result.code === 0 || result.code === null`. -/
def exitSuccess (code : Option Int) : Bool :=
  match code with
  | none => true
  | some c => c == 0

/-- The `isError` flag stored in the history entry for a spawned run that
reached the `close` branch. -/
def isErrorFlag (t w : Bool) (code : Option Int) : Bool :=
  t || w || !exitSuccess code

/-- The final status div appended to `outputDiv` in the `close` branch. -/
def finalMessage (t w : Bool) (code : Option Int) : OutputEntry :=
  if t then
    OutputEntry.message "output-error"
      ("✗ Timed out after " ++ toString (timeoutMs / 1000) ++ "s")
  else if w then
    OutputEntry.message "output-error" "⏹️ Execution stopped by user"
  else if exitSuccess code then
    OutputEntry.message "output-success" "✓ Completed successfully"
  else
    OutputEntry.message "output-error"
      ("✗ Error: exited with code " ++ toString (code.getD 0))

/-- One entry of `this.commandHistory`. The duration is kept in
milliseconds (`Date.now()` differences); the blocked path records `'0.00'`,
i.e. zero. -/
structure HistoryEntry where
  command : String
  output : List OutputEntry
  isError : Bool
  durationMs : Nat
deriving DecidableEq, Repr

/-- Supervisor-level state: the `isRunning` latch, the command history, and
a counter of spawned child processes (observational: one `spawn` call per
run that passes the guards). -/
structure SupState where
  isRunning : Bool
  history : List HistoryEntry
  spawnCount : Nat
deriving DecidableEq, Repr

/-- What the spawned child and the event loop do during one run: the
interleaved stream/timer/stop events in arrival order, then either the
`close` event with its exit code or the `error` event with its message, and
the measured wall-clock time. -/
structure ExecBehavior where
  events : List RunEvent
  exitResult : Except String (Option Int)
  elapsedMs : Nat
deriving Repr

/-- The body of `runScript` past the guards: fold the asynchronous events
over the spawn-time stream state, then resolve through the `close` branch or
the `catch` branch, appending the final status div. Returns the final
stream state, the outcome, the `isError` flag and the full `outputDiv` log
recorded into history. -/
def runBody (beh : ExecBehavior) : StreamState × Outcome × Bool × List OutputEntry :=
  let st := beh.events.foldl stepEvent initStream
  match beh.exitResult with
  | Except.error err =>
      (st, Outcome.failed err, true,
        st.log ++ [OutputEntry.message "output-error" ("✗ Error: " ++ err)])
  | Except.ok code =>
      (st, classify st.timedOut st.wasStopped code,
        isErrorFlag st.timedOut st.wasStopped code,
        st.log ++ [finalMessage st.timedOut st.wasStopped code])

/-- The history entry recorded for the `sudo`-blocked path. -/
def blockedEntry (script : String) : HistoryEntry :=
  { command := script
    output := [OutputEntry.message "output-error" "✗ sudo is blocked in this app"]
    isError := true
    durationMs := 0 }

/-- Embedding of `runScript`: trim the input; bail out silently when the
trimmed script is empty or a run is in flight; block standalone `sudo`
without spawning; otherwise spawn once and resolve through `runBody`.
Returns the new supervisor state and the run's outcome (`none` when no run
was created). -/
def runScript (sup : SupState) (input : String) (beh : ExecBehavior) :
    SupState × Option Outcome :=
  let script := trimJs input
  if script = "" ∨ sup.isRunning = true then (sup, none)
  else if sudoBlocked script then
    ({ sup with history := sup.history ++ [blockedEntry script] },
     some Outcome.blocked)
  else
    let r := runBody beh
    ({ sup with
        history := sup.history ++
          [{ command := script, output := r.2.2.2, isError := r.2.2.1
             durationMs := beh.elapsedMs }]
        spawnCount := sup.spawnCount + 1 },
     some r.2.1)

/-! ## Helper lemmas -/

theorem sum_splitLines_le (s : List Char) :
    ((splitLines s).map List.length).sum ≤ s.length := by
  induction s using splitLines.induct with
  | case1 => simp [splitLines]
  | case2 rest ih =>
      simp only [splitLines, List.map_cons, List.sum_cons, List.length_cons, List.length_nil]
      omega
  | case3 rest ih =>
      simp only [splitLines, List.map_cons, List.sum_cons, List.length_cons, List.length_nil]
      omega
  | case4 c rest h1 h2 heq ih =>
      rw [splitLines.eq_def]
      split
      · simp
      · simp_all
      · simp_all
      · rename_i l ls _ _ hm
        injection hm with hc hr
        subst hc; subst hr
        rw [heq]
        simp
  | case5 c rest h1 h2 l ls heq ih =>
      rw [splitLines.eq_def]
      split
      · simp_all
      · simp_all
      · simp_all
      · rename_i c2 rest2 hne1 hne2 hm
        injection hm with hc hr
        subst hc; subst hr
        rw [heq] at ih ⊢
        simp only [List.map_cons, List.sum_cons, List.length_cons] at ih ⊢
        omega

theorem sum_filter_nonEmptyLines (ls : List (List Char)) :
    (((ls.filter (fun l => !l.isEmpty)).map List.length).sum) =
      ((ls.map List.length).sum) := by
  induction ls with
  | nil => rfl
  | cons l ls ih =>
      by_cases h : l.isEmpty
      · have hl : l = [] := by simpa [List.isEmpty_iff] using h
        subst hl
        simpa [List.filter_cons] using ih
      · simp [List.filter_cons, h, ih]

theorem countChars_le (s : List Char) : countChars s ≤ s.length := by
  unfold countChars
  rw [sum_filter_nonEmptyLines]
  exact sum_splitLines_le s

/-! ## Claim theorems -/

/-- C10: the cumulative output counter counts only the characters of
non-empty lines of each chunk (`appendLines` adds `line.length` per
non-empty line of `data.split(/\r?\n/)`): the total never exceeds the
chunk's size, newline characters and empty lines contribute zero, and the
counted total can be strictly smaller than the characters the process
actually emitted. -/
theorem count_only_nonempty_lines :
    (∀ s : List Char, countChars s ≤ s.length) ∧
    countChars ("a\n\nb" : String).data = 2 ∧
    ("a\n\nb" : String).data.length = 4 ∧
    countChars ("\n\n" : String).data = 0 ∧
    countChars ("hello\n" : String).data < ("hello\n" : String).data.length := by
  refine ⟨countChars_le, ?_, ?_, ?_, ?_⟩ <;> decide

/-- C2: the timeout budget is the fixed 30 seconds; when the timer fires the
`timedOut` flag is set and one `SIGTERM` is sent; and at terminal resolution
the timed-out classification wins over the stopped/truncated flag and over
any exit code. -/
theorem timeout_fires_classification (st : StreamState) (events : List RunEvent)
    (code : Option Int) (ms : Nat)
    (ht : (events.foldl stepEvent initStream).timedOut = true) :
    timeoutMs = 30000 ∧
    (stepEvent st RunEvent.timeoutFires).timedOut = true ∧
    (stepEvent st RunEvent.timeoutFires).killSignals = st.killSignals + 1 ∧
    (∀ (w : Bool) (c : Option Int), classify true w c = Outcome.timedOutO) ∧
    (runBody ⟨events, Except.ok code, ms⟩).2.1 = Outcome.timedOutO := by
  refine ⟨rfl, rfl, rfl, fun _ _ => rfl, ?_⟩
  simp [runBody, classify, ht]

theorem timeout_fires_classification_witness :
    timeoutMs = 30000 ∧
    (stepEvent initStream RunEvent.timeoutFires).timedOut = true ∧
    (stepEvent initStream RunEvent.timeoutFires).killSignals =
      initStream.killSignals + 1 ∧
    (∀ (w : Bool) (c : Option Int), classify true w c = Outcome.timedOutO) ∧
    (runBody ⟨[RunEvent.timeoutFires], Except.ok (some 0), 30001⟩).2.1 =
      Outcome.timedOutO :=
  timeout_fires_classification initStream [RunEvent.timeoutFires] (some 0) 30001 rfl

theorem stepEvent_terminal_log (st : StreamState) (e : RunEvent)
    (h : st.timedOut = true ∨ st.wasStopped = true ∨ st.outputChars > maxOutputChars) :
    (stepEvent st e).log = st.log ∧
    ((stepEvent st e).timedOut = true ∨ (stepEvent st e).wasStopped = true ∨
      (stepEvent st e).outputChars > maxOutputChars) := by
  cases e with
  | data cls chunk =>
      have hg : st.outputChars > maxOutputChars ∨ st.timedOut = true ∨
          st.wasStopped = true := by tauto
      simp only [stepEvent]
      unfold onData
      rw [if_pos hg]
      exact ⟨rfl, h⟩
  | timeoutFires => exact ⟨rfl, Or.inl rfl⟩
  | stopRequest => exact ⟨rfl, Or.inr (Or.inl rfl)⟩

/-- C4: once a run is timed-out, stopped, or over the output cap, no stream
chunk is ever appended again: a single `data` event leaves the whole stream
state unchanged, and any sequence of further events leaves the output log
unchanged. -/
theorem no_output_after_terminal (st : StreamState) (evs : List RunEvent)
    (h : st.timedOut = true ∨ st.wasStopped = true ∨ st.outputChars > maxOutputChars) :
    (evs.foldl stepEvent st).log = st.log ∧
    (∀ (cls : String) (chunk : String), onData cls st chunk = st) := by
  constructor
  · induction evs generalizing st with
    | nil => rfl
    | cons e evs ih =>
        have h1 := stepEvent_terminal_log st e h
        simp only [List.foldl_cons]
        rw [ih (stepEvent st e) h1.2, h1.1]
  · intro cls chunk
    have hg : st.outputChars > maxOutputChars ∨ st.timedOut = true ∨
        st.wasStopped = true := by tauto
    unfold onData
    rw [if_pos hg]

theorem no_output_after_terminal_witness :
    (([RunEvent.data "output-stdout" "late", RunEvent.data "output-stderr" "x"].foldl
        stepEvent ⟨10, true, false, [], 1⟩).log = (⟨10, true, false, [], 1⟩ : StreamState).log) ∧
    (∀ (cls : String) (chunk : String),
      onData cls ⟨10, true, false, [], 1⟩ chunk = ⟨10, true, false, [], 1⟩) :=
  no_output_after_terminal ⟨10, true, false, [], 1⟩
    [RunEvent.data "output-stdout" "late", RunEvent.data "output-stderr" "x"]
    (Or.inl rfl)

/-- C5: submitting while a run is `Running` is rejected immediately: the call
returns with no outcome, no queuing, and the supervisor state (history,
spawn count, latch) is exactly unchanged, so the in-flight run is
unaffected. -/
theorem submit_while_running (sup : SupState) (input : String) (beh : ExecBehavior)
    (h : sup.isRunning = true) :
    runScript sup input beh = (sup, none) := by
  simp [runScript, h]

theorem submit_while_running_witness :
    runScript ⟨true, [], 1⟩ "echo hi" ⟨[], Except.ok (some 0), 5⟩ =
      (⟨true, [], 1⟩, none) :=
  submit_while_running ⟨true, [], 1⟩ "echo hi" ⟨[], Except.ok (some 0), 5⟩ rfl

/-- C9: a command line that trims to the empty string is a silent no-op: no
run is created (outcome `none`), nothing is spawned, and the history is
unchanged. -/
theorem empty_input_silent_noop (sup : SupState) (input : String)
    (beh : ExecBehavior) (h : trimJs input = "") :
    runScript sup input beh = (sup, none) := by
  simp [runScript, h]

theorem empty_input_silent_noop_witness :
    runScript ⟨false, [], 0⟩ "   " ⟨[], Except.ok (some 0), 5⟩ =
      (⟨false, [], 0⟩, none) :=
  empty_input_silent_noop ⟨false, [], 0⟩ "   " ⟨[], Except.ok (some 0), 5⟩ rfl

theorem stepEvent_outputChars_bound (L : Nat) (st : StreamState) (e : RunEvent)
    (h : st.outputChars ≤ maxOutputChars + L) (he : chunkLen e ≤ L) :
    (stepEvent st e).outputChars ≤ maxOutputChars + L := by
  cases e with
  | data cls chunk =>
      simp only [stepEvent]
      unfold onData
      split
      · exact h
      · rename_i hg
        push_neg at hg
        simp only [chunkLen] at he
        have h1 : st.outputChars ≤ maxOutputChars := by omega
        dsimp only
        split
        · simpa using Nat.add_le_add h1 he
        · simpa using Nat.add_le_add h1 he
  | timeoutFires => exact h
  | stopRequest => exact h

theorem foldl_outputChars_bound (L : Nat) (evs : List RunEvent) (st : StreamState)
    (h : st.outputChars ≤ maxOutputChars + L)
    (he : ∀ e ∈ evs, chunkLen e ≤ L) :
    (evs.foldl stepEvent st).outputChars ≤ maxOutputChars + L := by
  induction evs generalizing st with
  | nil => exact h
  | cons e evs ih =>
      simp only [List.foldl_cons]
      exact ih (stepEvent st e)
        (stepEvent_outputChars_bound L st e h (he e (List.mem_cons_self e evs)))
        (fun x hx => he x (List.mem_cons_of_mem e hx))

/-- C3: with every chunk adding at most `L` counted characters, the
cumulative counter never exceeds the 50,000-character cap by more than one
in-flight chunk (the cap is compared only after the chunk is appended), and
the chunk that pushes the counter past the cap appends the truncation
notice, marks the run stopped and sends one `SIGTERM`. -/
theorem output_cap_overage_bound (L : Nat) (evs : List RunEvent)
    (he : ∀ e ∈ evs, chunkLen e ≤ L) :
    maxOutputChars = 50000 ∧
    (evs.foldl stepEvent initStream).outputChars ≤ maxOutputChars + L ∧
    (∀ (cls : String) (st : StreamState) (chunk : String),
      st.outputChars ≤ maxOutputChars → st.timedOut = false → st.wasStopped = false →
      st.outputChars + countChars chunk.data > maxOutputChars →
      onData cls st chunk =
        { outputChars := st.outputChars + countChars chunk.data
          timedOut := st.timedOut
          wasStopped := true
          log := (st.log ++ lineEntries cls chunk.data) ++
            [OutputEntry.message "output-error" "⏹️ Output truncated (too large)"]
          killSignals := st.killSignals + 1 }) := by
  refine ⟨rfl, foldl_outputChars_bound L evs initStream (by simp [initStream]) he, ?_⟩
  intro cls st chunk h1 h2 h3 h4
  unfold onData
  rw [if_neg (by simp [h2, h3]; omega)]
  simp only []
  rw [if_pos (by simpa using h4)]

theorem output_cap_overage_bound_witness :
    maxOutputChars = 50000 ∧
    (([RunEvent.data "output-stdout" "hello\n"].foldl stepEvent initStream).outputChars ≤
      maxOutputChars + 10) ∧
    (∀ (cls : String) (st : StreamState) (chunk : String),
      st.outputChars ≤ maxOutputChars → st.timedOut = false → st.wasStopped = false →
      st.outputChars + countChars chunk.data > maxOutputChars →
      onData cls st chunk =
        { outputChars := st.outputChars + countChars chunk.data
          timedOut := st.timedOut
          wasStopped := true
          log := (st.log ++ lineEntries cls chunk.data) ++
            [OutputEntry.message "output-error" "⏹️ Output truncated (too large)"]
          killSignals := st.killSignals + 1 }) :=
  output_cap_overage_bound 10 [RunEvent.data "output-stdout" "hello\n"] (by decide)

/-- C1: a command line containing a standalone (case-insensitive) `sudo`
token resolves as `Blocked`: the only state change is the appended history
entry carrying the block-reason failure, no process is spawned
(`spawnCount` unchanged), and the recorded duration is zero. -/
theorem sudo_blocked_no_spawn (sup : SupState) (input : String) (beh : ExecBehavior)
    (hrun : sup.isRunning = false)
    (hsudo : sudoBlocked (trimJs input) = true) :
    runScript sup input beh =
      ({ sup with history := sup.history ++ [blockedEntry (trimJs input)] },
        some Outcome.blocked) ∧
    (runScript sup input beh).1.spawnCount = sup.spawnCount ∧
    (blockedEntry (trimJs input)).durationMs = 0 ∧
    (blockedEntry (trimJs input)).isError = true ∧
    (blockedEntry (trimJs input)).output =
      [OutputEntry.message "output-error" "✗ sudo is blocked in this app"] := by
  have hne : ¬ trimJs input = "" := by
    intro h
    rw [h] at hsudo
    exact absurd hsudo (by decide)
  have hmain : runScript sup input beh =
      ({ sup with history := sup.history ++ [blockedEntry (trimJs input)] },
        some Outcome.blocked) := by
    simp [runScript, hrun, hne, hsudo]
  exact ⟨hmain, by rw [hmain], rfl, rfl, rfl⟩

theorem sudo_blocked_no_spawn_witness :
    runScript ⟨false, [], 0⟩ "sudo ls" ⟨[], Except.ok (some 0), 5⟩ =
      ({ (⟨false, [], 0⟩ : SupState) with
          history := [] ++ [blockedEntry (trimJs "sudo ls")] },
        some Outcome.blocked) ∧
    (runScript ⟨false, [], 0⟩ "sudo ls" ⟨[], Except.ok (some 0), 5⟩).1.spawnCount = 0 ∧
    (blockedEntry (trimJs "sudo ls")).durationMs = 0 ∧
    (blockedEntry (trimJs "sudo ls")).isError = true ∧
    (blockedEntry (trimJs "sudo ls")).output =
      [OutputEntry.message "output-error" "✗ sudo is blocked in this app"] :=
  sudo_blocked_no_spawn ⟨false, [], 0⟩ "sudo ls" ⟨[], Except.ok (some 0), 5⟩
    rfl (by decide)

/-- C6: a null exit code (process killed without a reported code), with the
run not already timed-out or stopped, is classified exactly like exit code
0: a successful `Completed` run (`isError` false, success message). -/
theorem null_exit_is_success (t w : Bool) (ht : t = false) (hw : w = false) :
    classify t w none = Outcome.completed none ∧
    exitSuccess none = true ∧
    isErrorFlag t w none = isErrorFlag t w (some 0) ∧
    isErrorFlag t w none = false ∧
    finalMessage t w none = finalMessage t w (some 0) ∧
    finalMessage t w none =
      OutputEntry.message "output-success" "✓ Completed successfully" := by
  subst ht; subst hw
  exact ⟨rfl, rfl, rfl, rfl, rfl, rfl⟩

theorem null_exit_is_success_witness :
    classify false false none = Outcome.completed none ∧
    exitSuccess none = true ∧
    isErrorFlag false false none = isErrorFlag false false (some 0) ∧
    isErrorFlag false false none = false ∧
    finalMessage false false none = finalMessage false false (some 0) ∧
    finalMessage false false none =
      OutputEntry.message "output-success" "✓ Completed successfully" :=
  null_exit_is_success false false rfl rfl

/-- C7: a run whose process exits with a non-zero code, without timing out
or being stopped, resolves as `Completed` with that exit code recorded; it
is reported as a failure of the invoked command (`isError`, the
exited-with-code message), never as a supervisor `failed` outcome. -/
theorem nonzero_exit_completed (sup : SupState) (input : String)
    (beh : ExecBehavior) (c : Int)
    (hne : ¬ trimJs input = "") (hrun : sup.isRunning = false)
    (hsudo : sudoBlocked (trimJs input) = false)
    (hexit : beh.exitResult = Except.ok (some c)) (hc : ¬ c = 0)
    (ht : (beh.events.foldl stepEvent initStream).timedOut = false)
    (hw : (beh.events.foldl stepEvent initStream).wasStopped = false) :
    (runScript sup input beh).2 = some (Outcome.completed (some c)) ∧
    (∀ msg, Outcome.completed (some c) ≠ Outcome.failed msg) ∧
    isErrorFlag false false (some c) = true ∧
    finalMessage false false (some c) =
      OutputEntry.message "output-error"
        ("✗ Error: exited with code " ++ toString c) := by
  refine ⟨?_, ?_, ?_, ?_⟩
  · simp [runScript, hrun, hne, hsudo, runBody, hexit, classify, ht, hw]
  · intro msg h
    exact Outcome.noConfusion h
  · simp [isErrorFlag, exitSuccess, hc]
  · simp [finalMessage, exitSuccess, hc]

theorem nonzero_exit_completed_witness :
    (runScript ⟨false, [], 0⟩ "false" ⟨[], Except.ok (some 2), 55⟩).2 =
      some (Outcome.completed (some 2)) ∧
    (∀ msg, Outcome.completed (some 2) ≠ Outcome.failed msg) ∧
    isErrorFlag false false (some 2) = true ∧
    finalMessage false false (some 2) =
      OutputEntry.message "output-error"
        ("✗ Error: exited with code " ++ toString (2 : Int)) :=
  nonzero_exit_completed ⟨false, [], 0⟩ "false" ⟨[], Except.ok (some 2), 55⟩ 2
    (by decide) rfl (by decide) rfl (by decide) rfl rfl

/-- C8: past the empty-input and already-running guards, `submit` always
resolves with a terminal outcome; in particular a spawn or stream error
resolves the run as `Failed`, recording the underlying error message in the
history entry together with the measured duration. -/
theorem submit_always_resolves (sup : SupState) (input : String)
    (beh : ExecBehavior)
    (hne : ¬ trimJs input = "") (hrun : sup.isRunning = false) :
    (runScript sup input beh).2.isSome = true ∧
    (sudoBlocked (trimJs input) = false →
      ∀ err, beh.exitResult = Except.error err →
        (runScript sup input beh).2 = some (Outcome.failed err) ∧
        (runScript sup input beh).1.history =
          sup.history ++
            [{ command := trimJs input
               output := (beh.events.foldl stepEvent initStream).log ++
                 [OutputEntry.message "output-error" ("✗ Error: " ++ err)]
               isError := true
               durationMs := beh.elapsedMs }]) := by
  constructor
  · by_cases hs : sudoBlocked (trimJs input) = true
    · simp [runScript, hrun, hne, hs]
    · simp only [Bool.not_eq_true] at hs
      cases hx : beh.exitResult with
      | error err => simp [runScript, hrun, hne, hs, runBody, hx]
      | ok code => simp [runScript, hrun, hne, hs, runBody, hx]
  · intro hs err hx
    constructor
    · simp [runScript, hrun, hne, hs, runBody, hx]
    · simp [runScript, hrun, hne, hs, runBody, hx]

theorem submit_always_resolves_witness :
    (runScript ⟨false, [], 0⟩ "bad" ⟨[], Except.error "spawn ENOENT", 7⟩).2.isSome = true ∧
    (sudoBlocked (trimJs "bad") = false →
      ∀ err, (⟨[], Except.error "spawn ENOENT", 7⟩ : ExecBehavior).exitResult =
          Except.error err →
        (runScript ⟨false, [], 0⟩ "bad" ⟨[], Except.error "spawn ENOENT", 7⟩).2 =
          some (Outcome.failed err) ∧
        (runScript ⟨false, [], 0⟩ "bad" ⟨[], Except.error "spawn ENOENT", 7⟩).1.history =
          [] ++
            [{ command := trimJs "bad"
               output := (([] : List RunEvent).foldl stepEvent initStream).log ++
                 [OutputEntry.message "output-error" ("✗ Error: " ++ err)]
               isError := true
               durationMs := 7 }]) :=
  submit_always_resolves ⟨false, [], 0⟩ "bad" ⟨[], Except.error "spawn ENOENT", 7⟩
    (by decide) rfl

end ScoutAI
